import Mathlib

/-!
Verification of the Dynamic Breakout II daily signal logic
(`DynamicBreakoutAlgorithm.SetSignal` in
`Algorithm.Python/DynamicBreakoutAlgoTutorial.py`).

Prices are modelled as exact rationals; the two volatility values
(`np.std`, a real square root) live in `ℝ`.  A raised Python exception is
modelled as `Option.none` (for the lookback adjuster) and as the `raised`
flag of `EvalOutcome` (for a whole evaluation).
-/

namespace DynamicBreakout

/-- A daily price bar, as consumed from the history provider
(`self.History(...)['high'|'low'|'close']`). -/
structure Bar where
  high : ℚ
  low : ℚ
  close : ℚ
deriving DecidableEq

/-- An order dispatched to the portfolio: `SetHoldings(syl, w)` or
`Liquidate(syl)`. -/
inductive Action where
  | setTarget (w : ℤ)
  | liquidate
deriving DecidableEq

/-- self.floor = 20 (Initialize, line 53). -/
def floor : ℤ := 20

/-- self.ceiling = 60 (Initialize, line 53). -/
def ceiling : ℤ := 60

/-- self.numdays = 20 (Initialize, line 52). -/
def initialNumdays : ℤ := 20

/-- np.mean of a series of rationals (mean of the empty list is 0/0 = 0;
the empty case is only reached on paths that already raised). -/
def listMean (l : List ℚ) : ℚ := l.sum / (l.length : ℚ)

/-- The population variance (ddof = 0) underlying `np.std`. -/
def popVariance (l : List ℚ) : ℚ :=
  (l.map (fun x => (x - listMean l) * (x - listMean l))).sum / (l.length : ℚ)

/-- np.std: square root of the population variance. -/
noncomputable def npStd (l : List ℚ) : ℝ := Real.sqrt ((popVariance l : ℚ) : ℝ)

/-- Python's built-in `round` (round half to even), composed with `int()`:
the value stored by `int(round(x))` for finite `x`. -/
noncomputable def pyRound (x : ℝ) : ℤ :=
  if Int.fract x < 1 / 2 then ⌊x⌋
  else if 1 / 2 < Int.fract x then ⌊x⌋ + 1
  else if ⌊x⌋ % 2 = 0 then ⌊x⌋ else ⌊x⌋ + 1

/-- Lines 67-70: clamp the freshly assigned numdays into [floor, ceiling]. -/
def clamp (n : ℤ) : ℤ :=
  if n > ceiling then ceiling
  else if n < floor then floor
  else n

/-- Lines 61-70: the volatility lookback adjustment.
`close` is whatever `History(syl, 31, Daily)['close']` returned
(chronological, most recent last); the code slices `close[1:31]` and
`close[0:30]` without any length check.  When `todayvol = 0` the division
produces NaN or ±inf and `int(round(...))` raises (`none`); this is exactly
the case `popVariance (close[1:31]) = 0`, which also covers an empty or
singleton history.  Otherwise the new, clamped numdays is returned. -/
noncomputable def adjustNumdays (numdays : ℤ) (close : List ℚ) : Option ℤ :=
  if popVariance ((close.drop 1).take 30) = 0 then none
  else
    some (clamp (pyRound ((numdays : ℝ) *
      (1 + (npStd ((close.drop 1).take 30) - npStd (close.take 30)) /
        npStd ((close.drop 1).take 30)))))

/-- The most recent n elements of a chronological series. -/
def lastN (n : ℕ) (l : List ℚ) : List ℚ := l.drop (l.length - n)

/-- The ephemeral per-evaluation price levels (lines 75-80). -/
structure Levels where
  buypoint : ℚ
  sellpoint : ℚ
  longLiqPoint : ℚ
  shortLiqPoint : ℚ
  yesterdayclose : ℚ
deriving DecidableEq

/-- Python's built-in `max` over a series: none (a raise) on the empty
series, else a left fold of the binary max over the elements. -/
def pyMax : List ℚ → Option ℚ
  | [] => none
  | a :: l => some (l.foldl max a)

/-- Python's built-in `min` over a series. -/
def pyMin : List ℚ → Option ℚ
  | [] => none
  | a :: l => some (l.foldl min a)

/-- Lines 75-80: buypoint = max(high); sellpoint = min(low);
longLiqPoint = np.mean(historyclose); shortLiqPoint = np.mean(historyclose);
yesterdayclose = historyclose.iloc[-1].  `none` models the exception raised
by `max`/`min`/`iloc[-1]` on an empty series. -/
def computeLevels (highs lows closes : List ℚ) : Option Levels :=
  match pyMax highs with
  | none => none
  | some bp =>
    match pyMin lows with
    | none => none
    | some sp =>
      match closes.getLast? with
      | none => none
      | some yc => some ⟨bp, sp, listMean closes, listMean closes, yc⟩

/-- Lines 87-90: the entry if/elif chain. -/
def entryChain (lv : Levels) (upperBand lowerBand price : ℚ) : List Action :=
  if lv.yesterdayclose > upperBand ∧ price ≥ lv.buypoint then [Action.setTarget 1]
  else if lv.yesterdayclose < lowerBand ∧ price ≤ lv.sellpoint then
    [Action.setTarget (-1)]
  else []

/-- Lines 92-95: the exit if/elif chain; `holdings` is the portfolio
quantity read at line 85, before the entry chain runs.  Both branches
compare against `shortLiqPoint`. -/
def exitChain (lv : Levels) (price holdings : ℚ) : List Action :=
  if holdings > 0 ∧ price ≤ lv.shortLiqPoint then [Action.liquidate]
  else if holdings < 0 ∧ price ≥ lv.shortLiqPoint then [Action.liquidate]
  else []

/-- Lines 83-95: the gated decision block.  If the Bollinger band is not
ready the method returns before either chain (line 83); otherwise the
entry chain runs and then, independently, the exit chain. -/
def signalActions (ready : Bool) (lv : Levels) (upperBand lowerBand price holdings : ℚ) :
    List Action :=
  if ready = false then []
  else entryChain lv upperBand lowerBand price ++ exitChain lv price holdings

/-- Everything one `SetSignal` call reads from its collaborators:
`hist n` is `History(syl, n, Daily)` (chronological, most recent last,
possibly shorter than `n`), plus the band state, the current price and
the current holdings quantity. -/
structure DailyObs where
  hist : ℕ → List Bar
  bandReady : Bool
  upperBand : ℚ
  lowerBand : ℚ
  price : ℚ
  holdings : ℚ

/-- The observable outcome of one `SetSignal` call: the numdays field
after the call, the level fields written (none if the call raised before
they were assigned), the orders dispatched, and whether an exception
escaped. -/
structure EvalOutcome where
  numdays : ℤ
  levels : Option Levels
  actions : List Action
  raised : Bool

/-- One `SetSignal` call (lines 59-97), starting from the persistent
`numdays`.  The adjuster runs first on `History(31)`; if it raises, the
old numdays survives (the assignment on line 65 never completes).  The
levels are then recomputed from `History(numdays)` (lines 72-80), and only
then is the band-readiness gate checked (line 83). -/
noncomputable def setSignal (numdays : ℤ) (obs : DailyObs) : EvalOutcome :=
  match adjustNumdays numdays ((obs.hist 31).map Bar.close) with
  | none => ⟨numdays, none, [], true⟩
  | some nd =>
    match computeLevels ((obs.hist nd.toNat).map Bar.high)
        ((obs.hist nd.toNat).map Bar.low) ((obs.hist nd.toNat).map Bar.close) with
    | none => ⟨nd, none, [], true⟩
    | some lv =>
      ⟨nd, some lv,
        signalActions obs.bandReady lv obs.upperBand obs.lowerBand obs.price obs.holdings,
        false⟩

/-- The daily driver loop: thread numdays through successive evaluations,
recording each day's numdays and dispatched actions; an escaped exception
stops the run. -/
noncomputable def runSignals : ℤ → List DailyObs → List (ℤ × List Action)
  | _, [] => []
  | n, obs :: rest =>
    let r := setSignal n obs
    if r.raised then [(r.numdays, r.actions)]
    else (r.numdays, r.actions) :: runSignals r.numdays rest

/-- A set-target (entry) order. -/
def isEntry : Action → Bool
  | Action.setTarget _ => true
  | Action.liquidate => false

/-- A liquidation order. -/
def isLiq : Action → Bool
  | Action.setTarget _ => false
  | Action.liquidate => true

/-- A three-day price history (closes 2, 1, 3), shorter than any
31-bar request. -/
def c7bars : List Bar := [⟨2, 2, 2⟩, ⟨1, 1, 1⟩, ⟨3, 3, 3⟩]

/-- A day on which the history provider has only `c7bars` available, the
band is ready, the upper band is 2, the lower band 0, the current price 3
and the holdings flat. -/
def c7obs : DailyObs := ⟨fun n => c7bars.take n, true, 2, 0, 3, 0⟩

/-! ### Helper lemmas -/

theorem popVariance_nonneg (l : List ℚ) : 0 ≤ popVariance l := by
  unfold popVariance
  apply div_nonneg
  · apply List.sum_nonneg
    intro x hx
    simp only [List.mem_map] at hx
    obtain ⟨y, _, rfl⟩ := hx
    exact mul_self_nonneg _
  · positivity

theorem listMean_replicate (n : ℕ) (a : ℚ) (hn : n ≠ 0) :
    listMean (List.replicate n a) = a := by
  unfold listMean
  rw [List.sum_replicate, List.length_replicate, nsmul_eq_mul, mul_comm,
    mul_div_assoc, div_self (by exact_mod_cast hn), mul_one]

theorem popVariance_replicate (n : ℕ) (a : ℚ) :
    popVariance (List.replicate n a) = 0 := by
  rcases Nat.eq_zero_or_pos n with hn | hn
  · subst hn
    simp [popVariance]
  · unfold popVariance
    rw [listMean_replicate n a (Nat.pos_iff_ne_zero.mp hn)]
    rw [List.map_replicate]
    simp

theorem npStd_eq_zero_of (l : List ℚ) (h : popVariance l = 0) : npStd l = 0 := by
  unfold npStd
  rw [h]
  simp

theorem popVariance_eq_zero_of_npStd (l : List ℚ) (h : npStd l = 0) :
    popVariance l = 0 := by
  unfold npStd at h
  rw [Real.sqrt_eq_zero'] at h
  have h2 : popVariance l ≤ 0 := by exact_mod_cast h
  exact le_antisymm h2 (popVariance_nonneg l)

theorem npStd_ne_zero_of (l : List ℚ) (h : popVariance l ≠ 0) : npStd l ≠ 0 :=
  fun h0 => h (popVariance_eq_zero_of_npStd l h0)

theorem clamp_mem (n : ℤ) : floor ≤ clamp n ∧ clamp n ≤ ceiling := by
  unfold clamp floor ceiling
  split_ifs <;> omega

theorem le_foldl_max (a : ℚ) (l : List ℚ) : a ≤ l.foldl max a := by
  induction l generalizing a with
  | nil => exact le_refl a
  | cons x xs ih =>
    simp only [List.foldl_cons]
    exact le_trans (le_max_left a x) (ih (max a x))

theorem foldl_max_mem (a : ℚ) (l : List ℚ) : l.foldl max a = a ∨ l.foldl max a ∈ l := by
  induction l generalizing a with
  | nil => exact Or.inl rfl
  | cons x xs ih =>
    simp only [List.foldl_cons]
    rcases ih (max a x) with h | h
    · rcases max_choice a x with hm | hm
      · exact Or.inl (by rw [h, hm])
      · exact Or.inr (by rw [h, hm]; exact List.mem_cons_self x xs)
    · exact Or.inr (List.mem_cons_of_mem x h)

theorem mem_le_foldl_max (a x : ℚ) (l : List ℚ) (hx : x ∈ l) :
    x ≤ l.foldl max a := by
  induction l generalizing a with
  | nil => cases hx
  | cons y ys ih =>
    simp only [List.foldl_cons]
    rcases List.mem_cons.mp hx with rfl | h
    · exact le_trans (le_max_right a x) (le_foldl_max _ _)
    · exact ih _ h

theorem foldl_min_le (a : ℚ) (l : List ℚ) : l.foldl min a ≤ a := by
  induction l generalizing a with
  | nil => exact le_refl a
  | cons x xs ih =>
    simp only [List.foldl_cons]
    exact le_trans (ih (min a x)) (min_le_left a x)

theorem foldl_min_mem (a : ℚ) (l : List ℚ) : l.foldl min a = a ∨ l.foldl min a ∈ l := by
  induction l generalizing a with
  | nil => exact Or.inl rfl
  | cons x xs ih =>
    simp only [List.foldl_cons]
    rcases ih (min a x) with h | h
    · rcases min_choice a x with hm | hm
      · exact Or.inl (by rw [h, hm])
      · exact Or.inr (by rw [h, hm]; exact List.mem_cons_self x xs)
    · exact Or.inr (List.mem_cons_of_mem x h)

theorem foldl_min_le_mem (a x : ℚ) (l : List ℚ) (hx : x ∈ l) :
    l.foldl min a ≤ x := by
  induction l generalizing a with
  | nil => cases hx
  | cons y ys ih =>
    simp only [List.foldl_cons]
    rcases List.mem_cons.mp hx with rfl | h
    · exact le_trans (foldl_min_le _ _) (min_le_right a x)
    · exact ih _ h

theorem getLast?_cons_exists (c : ℚ) (cs : List ℚ) :
    ∃ y, (c :: cs).getLast? = some y := by
  induction cs generalizing c with
  | nil => exact ⟨c, rfl⟩
  | cons d ds ih =>
    obtain ⟨y, hy⟩ := ih d
    exact ⟨y, by rw [List.getLast?_cons_cons]; exact hy⟩

/-! ### Claim theorems -/

/-- C1: with a close series of 31 consecutive daily bars (chronological,
most recent last) and nonzero todayvol, the adjuster computes todayvol as
the standard deviation of the 30 most recent closes, yesterdayvol as the
standard deviation of the 30 closes one day earlier, and replaces numdays
by round(numdays * (1 + (todayvol - yesterdayvol)/todayvol)) clamped into
[floor, ceiling]; the adjusted value satisfies floor ≤ numdays ≤ ceiling. -/
theorem c1_adjust_formula_and_clamp (nd : ℤ) (close : List ℚ)
    (h31 : close.length = 31) (hvol : npStd (lastN 30 close) ≠ 0) :
    adjustNumdays nd close =
      some (clamp (pyRound ((nd : ℝ) *
        (1 + (npStd (lastN 30 close) - npStd (close.take 30)) /
          npStd (lastN 30 close))))) ∧
    floor ≤ clamp (pyRound ((nd : ℝ) *
        (1 + (npStd (lastN 30 close) - npStd (close.take 30)) /
          npStd (lastN 30 close)))) ∧
    clamp (pyRound ((nd : ℝ) *
        (1 + (npStd (lastN 30 close) - npStd (close.take 30)) /
          npStd (lastN 30 close)))) ≤ ceiling := by
  have hLast : lastN 30 close = close.drop 1 := by
    unfold lastN
    rw [h31]
  have hlen : (close.drop 1).length = 30 := by
    rw [List.length_drop, h31]
  have htake : (close.drop 1).take 30 = close.drop 1 :=
    List.take_of_length_le (le_of_eq hlen)
  have hvar : ¬ popVariance ((close.drop 1).take 30) = 0 := by
    rw [htake]
    intro h0
    exact hvol (by rw [hLast]; exact npStd_eq_zero_of _ h0)
  refine ⟨?_, (clamp_mem _).1, (clamp_mem _).2⟩
  rw [hLast]
  unfold adjustNumdays
  rw [if_neg hvar, htake]

/-- C1 witness: a concrete 31-bar close series with nonzero todayvol. -/
theorem c1_adjust_formula_and_clamp_witness :
    adjustNumdays 20 ((0 : ℚ) :: (List.replicate 15 (0 : ℚ) ++ List.replicate 15 2)) =
      some (clamp (pyRound (((20 : ℤ) : ℝ) *
        (1 + (npStd (lastN 30 ((0 : ℚ) :: (List.replicate 15 (0 : ℚ) ++ List.replicate 15 2))) -
              npStd (((0 : ℚ) :: (List.replicate 15 (0 : ℚ) ++ List.replicate 15 2)).take 30)) /
          npStd (lastN 30 ((0 : ℚ) :: (List.replicate 15 (0 : ℚ) ++ List.replicate 15 2))))))) ∧
    floor ≤ clamp (pyRound (((20 : ℤ) : ℝ) *
        (1 + (npStd (lastN 30 ((0 : ℚ) :: (List.replicate 15 (0 : ℚ) ++ List.replicate 15 2))) -
              npStd (((0 : ℚ) :: (List.replicate 15 (0 : ℚ) ++ List.replicate 15 2)).take 30)) /
          npStd (lastN 30 ((0 : ℚ) :: (List.replicate 15 (0 : ℚ) ++ List.replicate 15 2)))))) ∧
    clamp (pyRound (((20 : ℤ) : ℝ) *
        (1 + (npStd (lastN 30 ((0 : ℚ) :: (List.replicate 15 (0 : ℚ) ++ List.replicate 15 2))) -
              npStd (((0 : ℚ) :: (List.replicate 15 (0 : ℚ) ++ List.replicate 15 2)).take 30)) /
          npStd (lastN 30 ((0 : ℚ) :: (List.replicate 15 (0 : ℚ) ++ List.replicate 15 2)))))) ≤ ceiling := by
  have hlen : ((0 : ℚ) :: (List.replicate 15 (0 : ℚ) ++ List.replicate 15 2)).length = 31 := by
    simp
  have hlast : lastN 30 ((0 : ℚ) :: (List.replicate 15 (0 : ℚ) ++ List.replicate 15 2)) =
      List.replicate 15 (0 : ℚ) ++ List.replicate 15 2 := by
    unfold lastN
    rw [hlen]
    rfl
  have hmean : listMean (List.replicate 15 (0 : ℚ) ++ List.replicate 15 2) = 1 := by
    unfold listMean
    rw [List.sum_append, List.sum_replicate, List.sum_replicate, List.length_append,
      List.length_replicate, List.length_replicate]
    norm_num
  have hvar : popVariance (List.replicate 15 (0 : ℚ) ++ List.replicate 15 2) = 1 := by
    unfold popVariance
    rw [hmean, List.map_append, List.map_replicate, List.map_replicate, List.sum_append,
      List.sum_replicate, List.sum_replicate, List.length_append, List.length_replicate,
      List.length_replicate]
    norm_num
  exact c1_adjust_formula_and_clamp 20
    ((0 : ℚ) :: (List.replicate 15 (0 : ℚ) ++ List.replicate 15 2)) hlen
    (npStd_ne_zero_of _ (by rw [hlast, hvar]; norm_num))

/-- C3 counterexample: on a flat series of 31 identical closes the
adjuster raises (the NaN produced by 0/0 cannot be converted by
int(round(...))) instead of completing with numdays unchanged. -/
theorem c3_flat_series_raises :
    adjustNumdays 20 (List.replicate 31 (3 : ℚ)) = none ∧
    adjustNumdays 20 (List.replicate 31 (3 : ℚ)) ≠ some 20 := by
  have h1 : (((List.replicate 31 (3 : ℚ)).drop 1).take 30) = List.replicate 30 (3 : ℚ) := rfl
  have h : adjustNumdays 20 (List.replicate 31 (3 : ℚ)) = none := by
    unfold adjustNumdays
    rw [if_pos (by rw [h1]; exact popVariance_replicate 30 3)]
  exact ⟨h, by rw [h]; intro hc; cases hc⟩

/-- C3 amended: when todayvol = 0 the evaluation raises an exception
(modelled as `none`); the stored numdays survives only because the
assignment never completes, not because the adjuster deliberately keeps
it. -/
theorem c3_zero_todayvol_raises (nd : ℤ) (close : List ℚ)
    (h : npStd ((close.drop 1).take 30) = 0) :
    adjustNumdays nd close = none := by
  unfold adjustNumdays
  rw [if_pos (popVariance_eq_zero_of_npStd _ h)]

/-- C3 amended witness: the flat 31-bar series has todayvol = 0. -/
theorem c3_zero_todayvol_raises_witness :
    adjustNumdays 20 (List.replicate 31 (7 : ℚ)) = none :=
  c3_zero_todayvol_raises 20 (List.replicate 31 (7 : ℚ))
    (npStd_eq_zero_of _
      (by rw [show (((List.replicate 31 (7 : ℚ)).drop 1).take 30) = List.replicate 30 (7 : ℚ)
            from rfl]
          exact popVariance_replicate 30 7))

/-- C4: when the band indicator is not ready, the evaluation dispatches no
order at all, whatever the prices, levels and holdings are. -/
theorem c4_not_ready_no_actions (n : ℤ) (obs : DailyObs)
    (h : obs.bandReady = false) :
    (setSignal n obs).actions = [] := by
  cases hadj : adjustNumdays n ((obs.hist 31).map Bar.close) with
  | none => simp [setSignal, hadj]
  | some nd =>
    cases hlv : computeLevels ((obs.hist nd.toNat).map Bar.high)
        ((obs.hist nd.toNat).map Bar.low) ((obs.hist nd.toNat).map Bar.close) with
    | none => simp [setSignal, hadj, hlv]
    | some lv => simp [setSignal, hadj, hlv, signalActions, h]

/-- C4 witness: a not-ready day emits nothing. -/
theorem c4_not_ready_no_actions_witness :
    (setSignal 20 (⟨fun _ => [], false, 0, 0, 0, 0⟩ : DailyObs)).actions = [] :=
  c4_not_ready_no_actions 20 (⟨fun _ => [], false, 0, 0, 0, 0⟩ : DailyObs) rfl

/-- C2: with the band ready, the decision block is the entry if/elif chain
followed by the exit if/elif chain: entry-long when yesterdayclose is
above the upper band and the price reached the buypoint; otherwise
entry-short under the mirrored conditions; exit when positive holdings and
price at or below shortLiqPoint (boundary inclusive), otherwise when
negative holdings and price at or above it.  Each chain emits at most one
action, so rules 1/2 are mutually exclusive and so are rules 3/4. -/
theorem c2_decision_rules (lv : Levels) (upperBand lowerBand price holdings : ℚ) :
    signalActions true lv upperBand lowerBand price holdings =
      entryChain lv upperBand lowerBand price ++ exitChain lv price holdings ∧
    (lv.yesterdayclose > upperBand ∧ price ≥ lv.buypoint →
      entryChain lv upperBand lowerBand price = [Action.setTarget 1]) ∧
    (¬(lv.yesterdayclose > upperBand ∧ price ≥ lv.buypoint) →
      lv.yesterdayclose < lowerBand ∧ price ≤ lv.sellpoint →
      entryChain lv upperBand lowerBand price = [Action.setTarget (-1)]) ∧
    (holdings > 0 ∧ price ≤ lv.shortLiqPoint →
      exitChain lv price holdings = [Action.liquidate]) ∧
    (holdings > 0 ∧ price = lv.shortLiqPoint →
      exitChain lv price holdings = [Action.liquidate]) ∧
    (¬(holdings > 0 ∧ price ≤ lv.shortLiqPoint) →
      holdings < 0 ∧ price ≥ lv.shortLiqPoint →
      exitChain lv price holdings = [Action.liquidate]) ∧
    (entryChain lv upperBand lowerBand price).length ≤ 1 ∧
    (exitChain lv price holdings).length ≤ 1 := by
  refine ⟨?_, ?_, ?_, ?_, ?_, ?_, ?_, ?_⟩
  · simp [signalActions]
  · intro h
    simp only [entryChain]
    rw [if_pos h]
  · intro hne h
    simp only [entryChain]
    rw [if_neg hne, if_pos h]
  · intro h
    simp only [exitChain]
    rw [if_pos h]
  · intro h
    simp only [exitChain]
    rw [if_pos ⟨h.1, le_of_eq h.2⟩]
  · intro hne h
    simp only [exitChain]
    rw [if_neg hne, if_pos h]
  · simp only [entryChain]
    split_ifs <;> simp
  · simp only [exitChain]
    split_ifs <;> simp

/-- C2 witness: an entry-long day (yesterdayclose 12 above band 11, price
10 at the buypoint 10) produces the full-long target. -/
theorem c2_decision_rules_witness :
    entryChain (⟨10, 5, 7, 7, 12⟩ : Levels) 11 4 10 = [Action.setTarget 1] :=
  (c2_decision_rules (⟨10, 5, 7, 7, 12⟩ : Levels) 11 4 10 0).2.1 (by norm_num)

/-- C6 counterexample: holdings 1, yesterdayclose 3 above upper band 2,
price 1 at the buypoint 1 and below shortLiqPoint 2 makes one evaluation
dispatch both a full-long entry and a liquidation, so an evaluation does
not emit exactly one of the four outputs. -/
theorem c6_entry_and_liquidate_same_eval :
    signalActions true (⟨1, 0, 2, 2, 3⟩ : Levels) 2 0 1 1 =
      [Action.setTarget 1, Action.liquidate] := by
  norm_num [signalActions, entryChain, exitChain]

/-- C6 amended: an evaluation emits a possibly empty list of at most two
orders, at most one entry followed by at most one liquidation; an entry
and a liquidation can co-occur in one evaluation. -/
theorem c6_at_most_two_actions (ready : Bool) (lv : Levels)
    (upperBand lowerBand price holdings : ℚ) :
    (signalActions ready lv upperBand lowerBand price holdings).length ≤ 2 ∧
    ((signalActions ready lv upperBand lowerBand price holdings).filter isLiq).length ≤ 1 ∧
    ((signalActions ready lv upperBand lowerBand price holdings).filter isEntry).length ≤ 1 := by
  unfold signalActions entryChain exitChain
  split_ifs <;> simp [isLiq, isEntry]

/-- C8: longLiqPoint and shortLiqPoint are the same number by construction
(both the mean of the same close series), and the decision block reads
only shortLiqPoint: changing longLiqPoint alone cannot change any
decision. -/
theorem c8_liq_points_identical (highs lows closes : List ℚ) (lv : Levels)
    (x upperBand lowerBand price holdings : ℚ) (ready : Bool)
    (h : computeLevels highs lows closes = some lv) :
    lv.longLiqPoint = lv.shortLiqPoint ∧
    signalActions ready { lv with longLiqPoint := x } upperBand lowerBand price holdings =
      signalActions ready lv upperBand lowerBand price holdings := by
  unfold computeLevels at h
  rcases hbp : pyMax highs with _ | bp <;> rw [hbp] at h
  · simp at h
  rcases hsp : pyMin lows with _ | sp <;> rw [hsp] at h
  · simp at h
  rcases hyc : closes.getLast? with _ | yc <;> rw [hyc] at h
  · simp at h
  simp only [Option.some.injEq] at h
  subst h
  exact ⟨rfl, rfl⟩

/-- C8 witness: a singleton window gives identical liquidation levels and
a longLiqPoint-insensitive decision. -/
theorem c8_liq_points_identical_witness :
    (⟨5, 4, 6, 6, 6⟩ : Levels).longLiqPoint = (⟨5, 4, 6, 6, 6⟩ : Levels).shortLiqPoint ∧
    signalActions true { (⟨5, 4, 6, 6, 6⟩ : Levels) with longLiqPoint := 9 } 9 9 9 9 =
      signalActions true (⟨5, 4, 6, 6, 6⟩ : Levels) 9 9 9 9 := by
  have h : computeLevels [(5 : ℚ)] [(4 : ℚ)] [(6 : ℚ)] = some (⟨5, 4, 6, 6, 6⟩ : Levels) := by
    unfold computeLevels pyMax pyMin
    norm_num [listMean]
  exact c8_liq_points_identical [(5 : ℚ)] [(4 : ℚ)] [(6 : ℚ)] (⟨5, 4, 6, 6, 6⟩ : Levels)
    9 9 9 9 9 true h

/-- C5: on nonempty high/low/close windows (one bar per day, chronological,
most recent last) the level calculator returns levels with buypoint the
maximum of the highs, sellpoint the minimum of the lows, both liquidation
points the arithmetic mean of the closes, and yesterdayclose the close of
the most recent (last) bar. -/
theorem c5_levels_spec (nd : ℕ) (highs lows closes : List ℚ)
    (hnd : 0 < nd) (hh : highs.length = nd) (hl : lows.length = nd)
    (hc : closes.length = nd) :
    ∃ lv : Levels, computeLevels highs lows closes = some lv ∧
      lv.buypoint ∈ highs ∧ (∀ x ∈ highs, x ≤ lv.buypoint) ∧
      lv.sellpoint ∈ lows ∧ (∀ x ∈ lows, lv.sellpoint ≤ x) ∧
      lv.longLiqPoint = closes.sum / (closes.length : ℚ) ∧
      lv.shortLiqPoint = closes.sum / (closes.length : ℚ) ∧
      closes.getLast? = some lv.yesterdayclose := by
  cases highs with
  | nil => simp at hh; omega
  | cons a hs =>
  cases lows with
  | nil => simp at hl; omega
  | cons b ls =>
  cases closes with
  | nil => simp at hc; omega
  | cons c cs =>
  obtain ⟨y, hy⟩ := getLast?_cons_exists c cs
  refine ⟨⟨hs.foldl max a, ls.foldl min b, listMean (c :: cs), listMean (c :: cs), y⟩,
    ?_, ?_, ?_, ?_, ?_, rfl, rfl, hy⟩
  · unfold computeLevels pyMax pyMin
    rw [hy]
  · rcases foldl_max_mem a hs with h | h
    · rw [h]
      exact List.mem_cons_self a hs
    · exact List.mem_cons_of_mem a h
  · intro x hx
    rcases List.mem_cons.mp hx with rfl | hx2
    · exact le_foldl_max x hs
    · exact mem_le_foldl_max a x hs hx2
  · rcases foldl_min_mem b ls with h | h
    · rw [h]
      exact List.mem_cons_self b ls
    · exact List.mem_cons_of_mem b h
  · intro x hx
    rcases List.mem_cons.mp hx with rfl | hx2
    · exact foldl_min_le x ls
    · exact foldl_min_le_mem b x ls hx2

theorem setSignal_eq (n : ℤ) (obs : DailyObs) (nd : ℤ) (lv : Levels)
    (h1 : adjustNumdays n ((obs.hist 31).map Bar.close) = some nd)
    (h2 : computeLevels ((obs.hist nd.toNat).map Bar.high)
      ((obs.hist nd.toNat).map Bar.low) ((obs.hist nd.toNat).map Bar.close) = some lv) :
    setSignal n obs = ⟨nd, some lv,
      signalActions obs.bandReady lv obs.upperBand obs.lowerBand obs.price obs.holdings,
      false⟩ := by
  unfold setSignal
  rw [h1]
  dsimp only
  rw [h2]

/-- C5 witness: a concrete two-bar window. -/
theorem c5_levels_spec_witness :
    ∃ lv : Levels, computeLevels [(2 : ℚ), 1] [(1 : ℚ), 0] [(3 : ℚ), 4] = some lv ∧
      lv.buypoint ∈ [(2 : ℚ), 1] ∧ (∀ x ∈ [(2 : ℚ), 1], x ≤ lv.buypoint) ∧
      lv.sellpoint ∈ [(1 : ℚ), 0] ∧ (∀ x ∈ [(1 : ℚ), 0], lv.sellpoint ≤ x) ∧
      lv.longLiqPoint = [(3 : ℚ), 4].sum / (([(3 : ℚ), 4].length : ℕ) : ℚ) ∧
      lv.shortLiqPoint = [(3 : ℚ), 4].sum / (([(3 : ℚ), 4].length : ℕ) : ℚ) ∧
      [(3 : ℚ), 4].getLast? = some lv.yesterdayclose :=
  c5_levels_spec 2 [(2 : ℚ), 1] [(1 : ℚ), 0] [(3 : ℚ), 4] (by norm_num) rfl rfl rfl

/-- C7 counterexample: when the history request returns only 3 of the 31
requested bars (closes 2, 1, 3), the evaluation is not skipped: the
volatility windows silently shrink, numdays moves from 20 to 24
(todayvol = 1, yesterdayvol = sqrt(2/3)), and a full-long entry is even
dispatched. -/
theorem c7_short_history_not_skipped :
    (c7obs.hist 31).length < 31 ∧
    (setSignal 20 c7obs).numdays = 24 ∧
    (setSignal 20 c7obs).actions = [Action.setTarget 1] := by
  have hpv1 : popVariance (([(2 : ℚ), 1, 3].drop 1).take 30) = 1 := by
    show popVariance [(1 : ℚ), 3] = 1
    norm_num [popVariance, listMean]
  have hpv2 : popVariance ([(2 : ℚ), 1, 3].take 30) = 2 / 3 := by
    show popVariance [(2 : ℚ), 1, 3] = 2 / 3
    norm_num [popVariance, listMean]
  have hs1 : npStd (([(2 : ℚ), 1, 3].drop 1).take 30) = 1 := by
    unfold npStd
    rw [hpv1]
    simp
  have hs2 : npStd ([(2 : ℚ), 1, 3].take 30) = Real.sqrt (2 / 3) := by
    unfold npStd
    rw [hpv2]
    norm_num
  have hsl : (4 / 5 : ℝ) < Real.sqrt (2 / 3) := by
    rw [show (2 / 3 : ℝ) = ((2 : ℝ) / 3) from rfl]
    exact (Real.lt_sqrt (by norm_num)).mpr (by norm_num)
  have hsu : Real.sqrt (2 / 3) < 33 / 40 :=
    (Real.sqrt_lt' (by norm_num)).mpr (by norm_num)
  have hfl : ⌊(40 - 20 * Real.sqrt (2 / 3) : ℝ)⌋ = 23 := by
    rw [Int.floor_eq_iff]
    constructor
    · push_cast
      linarith [hsu]
    · push_cast
      linarith [hsl]
  have hfr : Int.fract (40 - 20 * Real.sqrt (2 / 3) : ℝ) =
      (40 - 20 * Real.sqrt (2 / 3)) - 23 := by
    unfold Int.fract
    rw [hfl]
    norm_num
  have hround : pyRound (40 - 20 * Real.sqrt (2 / 3) : ℝ) = 24 := by
    unfold pyRound
    rw [hfr, hfl]
    rw [if_neg (by intro hc; linarith [hsu]), if_pos (by linarith [hsu])]
    norm_num
  have hadj : adjustNumdays 20 [(2 : ℚ), 1, 3] = some 24 := by
    unfold adjustNumdays
    rw [if_neg (by rw [hpv1]; norm_num), hs1, hs2]
    rw [show ((20 : ℤ) : ℝ) * (1 + (1 - Real.sqrt (2 / 3)) / 1) =
      40 - 20 * Real.sqrt (2 / 3) by push_cast; ring]
    rw [hround]
    norm_num [clamp, ceiling, floor]
  have hmapc : (c7obs.hist 31).map Bar.close = [(2 : ℚ), 1, 3] := rfl
  have hlv : computeLevels ((c7obs.hist (Int.toNat 24)).map Bar.high)
      ((c7obs.hist (Int.toNat 24)).map Bar.low)
      ((c7obs.hist (Int.toNat 24)).map Bar.close) = some ⟨3, 1, 2, 2, 3⟩ := by
    have hhi : (c7obs.hist (Int.toNat 24)).map Bar.high = [(2 : ℚ), 1, 3] := rfl
    have hlo : (c7obs.hist (Int.toNat 24)).map Bar.low = [(2 : ℚ), 1, 3] := rfl
    have hcl : (c7obs.hist (Int.toNat 24)).map Bar.close = [(2 : ℚ), 1, 3] := rfl
    rw [hhi, hlo, hcl]
    norm_num [computeLevels, pyMax, pyMin, List.foldl, max_def, min_def, listMean,
      List.getLast?_cons_cons]
  have hss := setSignal_eq 20 c7obs 24 ⟨3, 1, 2, 2, 3⟩ (by rw [hmapc]; exact hadj) hlv
  refine ⟨by norm_num [c7obs, c7bars], by rw [hss], ?_⟩
  rw [hss]
  show signalActions c7obs.bandReady _ c7obs.upperBand c7obs.lowerBand c7obs.price
    c7obs.holdings = _
  norm_num [c7obs, signalActions, entryChain, exitChain]

/-- C7 amended: a short history result is not skipped; the adjuster simply
runs on whatever closes came back, and numdays after the evaluation is the
(possibly changed) adjusted value. -/
theorem c7_short_history_processed (n : ℤ) (obs : DailyObs)
    (_h : (obs.hist 31).length < 31) :
    (setSignal n obs).numdays =
      (adjustNumdays n ((obs.hist 31).map Bar.close)).getD n := by
  cases hadj : adjustNumdays n ((obs.hist 31).map Bar.close) with
  | none => simp [setSignal, hadj]
  | some nd =>
    cases hlv : computeLevels ((obs.hist nd.toNat).map Bar.high)
        ((obs.hist nd.toNat).map Bar.low) ((obs.hist nd.toNat).map Bar.close) with
    | none => simp [setSignal, hadj, hlv]
    | some lv => simp [setSignal, hadj, hlv]

/-- C7 amended witness: a 3-bar history is processed, not skipped. -/
theorem c7_short_history_processed_witness :
    (setSignal 20 c7obs).numdays =
      (adjustNumdays 20 ((c7obs.hist 31).map Bar.close)).getD 20 :=
  c7_short_history_processed 20 c7obs (by norm_num [c7obs, c7bars])

/-- C9: replay is deterministic: two runs from freshly initialized
lookback states over equal daily observation sequences produce identical
numdays trajectories and identical decision sequences. -/
theorem c9_replay_deterministic (n1 n2 : ℤ) (obs1 obs2 : List DailyObs)
    (h1 : n1 = initialNumdays) (h2 : n2 = initialNumdays) (hobs : obs1 = obs2) :
    (runSignals n1 obs1).map Prod.fst = (runSignals n2 obs2).map Prod.fst ∧
    (runSignals n1 obs1).map Prod.snd = (runSignals n2 obs2).map Prod.snd := by
  subst h1
  subst h2
  subst hobs
  exact ⟨rfl, rfl⟩

/-- C9 witness: a concrete one-day replay. -/
theorem c9_replay_deterministic_witness :
    (runSignals 20 [(⟨fun _ => [], false, 0, 0, 0, 0⟩ : DailyObs)]).map Prod.fst =
      (runSignals 20 [(⟨fun _ => [], false, 0, 0, 0, 0⟩ : DailyObs)]).map Prod.fst ∧
    (runSignals 20 [(⟨fun _ => [], false, 0, 0, 0, 0⟩ : DailyObs)]).map Prod.snd =
      (runSignals 20 [(⟨fun _ => [], false, 0, 0, 0, 0⟩ : DailyObs)]).map Prod.snd :=
  c9_replay_deterministic 20 20 [(⟨fun _ => [], false, 0, 0, 0, 0⟩ : DailyObs)]
    [(⟨fun _ => [], false, 0, 0, 0, 0⟩ : DailyObs)] rfl rfl rfl

/-- C10 (implicit): numdays is adjusted and clamped, and the levels are
recomputed, before the band-readiness gate is checked: on a not-ready day
the evaluation produces the same numdays and the same levels as the
ready version of that day would, numdays equals the adjusted value, and
yet no order is dispatched. -/
theorem c10_numdays_updated_before_gate (n : ℤ) (obs : DailyObs)
    (h : obs.bandReady = false) :
    (setSignal n obs).numdays = (setSignal n { obs with bandReady := true }).numdays ∧
    (setSignal n obs).levels = (setSignal n { obs with bandReady := true }).levels ∧
    (setSignal n obs).numdays = (adjustNumdays n ((obs.hist 31).map Bar.close)).getD n ∧
    (setSignal n obs).actions = [] := by
  cases hadj : adjustNumdays n ((obs.hist 31).map Bar.close) with
  | none => refine ⟨?_, ?_, ?_, ?_⟩ <;> simp [setSignal, hadj]
  | some nd =>
    cases hlv : computeLevels ((obs.hist nd.toNat).map Bar.high)
        ((obs.hist nd.toNat).map Bar.low) ((obs.hist nd.toNat).map Bar.close) with
    | none => refine ⟨?_, ?_, ?_, ?_⟩ <;> simp [setSignal, hadj, hlv]
    | some lv =>
      refine ⟨?_, ?_, ?_, ?_⟩ <;> simp [setSignal, hadj, hlv, signalActions, h]

/-- C10 witness: a concrete not-ready day. -/
theorem c10_numdays_updated_before_gate_witness :
    (setSignal 20 (⟨fun _ => [], false, 1, 2, 3, 4⟩ : DailyObs)).numdays =
      (setSignal 20 { (⟨fun _ => [], false, 1, 2, 3, 4⟩ : DailyObs) with
        bandReady := true }).numdays ∧
    (setSignal 20 (⟨fun _ => [], false, 1, 2, 3, 4⟩ : DailyObs)).levels =
      (setSignal 20 { (⟨fun _ => [], false, 1, 2, 3, 4⟩ : DailyObs) with
        bandReady := true }).levels ∧
    (setSignal 20 (⟨fun _ => [], false, 1, 2, 3, 4⟩ : DailyObs)).numdays =
      (adjustNumdays 20
        (((⟨fun _ => [], false, 1, 2, 3, 4⟩ : DailyObs).hist 31).map Bar.close)).getD 20 ∧
    (setSignal 20 (⟨fun _ => [], false, 1, 2, 3, 4⟩ : DailyObs)).actions = [] :=
  c10_numdays_updated_before_gate 20 (⟨fun _ => [], false, 1, 2, 3, 4⟩ : DailyObs) rfl

end DynamicBreakout
